import Mathlib

set_option maxRecDepth 100000

/-!
Verification of the tier-gating and command-dispatch core of the
WhatsApp Pro Bot (Baileys multi-device pairing repository).

The development shallowly embeds the in-memory user store
(`src/services/userDb.js`), the payment gate middleware
(`src/middleware/paymentGate.js`), the command handlers and router
(`src/handlers/commandHandler.js`) and the outcome shape of the welcome
email service (`src/services/emailService.js`).

Modelling conventions:
  - A JS `Map<string, Record>` becomes an insertion-ordered association
    list of records keyed by the `jid` field (`set` replaces in place or
    appends; lookup takes the first match).
  - `new Date()` timestamps become an explicit `now : Nat` parameter.
  - `sock.sendMessage(jid, { text })` becomes appending a `Sent` entry
    to the returned effect log; the fire-and-forget
    `sendWelcomeEmail(email, jid)` call becomes appending an
    `(email, jid)` pair to the returned email-call log, with the SMTP
    transport outcome abstracted as a boolean oracle.
  - JS string helpers (`trim`, `split(/\s+/)`, `toLowerCase`,
    `includes("@")`) are re-implemented structurally over `List Char`
    (ASCII-faithful, which covers every command token the router
    compares against).
-/

namespace ProBot

/-! ## JS string primitives -/

/-- Whitespace test used by `trim` and `split(/\s+/)`. -/
def isWsChar (c : Char) : Bool := c.isWhitespace

/-- Character-list core of JS `String.prototype.trim`. -/
def trimChars (cs : List Char) : List Char :=
  ((cs.dropWhile isWsChar).reverse.dropWhile isWsChar).reverse

/-- JS `text.trim()`. -/
def jsTrim (s : String) : String := ⟨trimChars s.data⟩

/-- Accumulator pass of `split(/\s+/)`: collects maximal runs of
non-whitespace characters. -/
def splitWsAux : List Char → List Char → List (List Char)
  | [], acc => if acc.isEmpty then [] else [acc.reverse]
  | c :: cs, acc =>
    if isWsChar c then
      if acc.isEmpty then splitWsAux cs [] else acc.reverse :: splitWsAux cs []
    else splitWsAux cs (c :: acc)

/-- JS `s.split(/\s+/)` as the router uses it (on already-trimmed
input); JS returns `[""]` on the empty string. -/
def jsSplitWs (s : String) : List String :=
  if s.data = [] then [""]
  else (splitWsAux s.data []).map (fun cs => ⟨cs⟩)

/-- JS `s.toLowerCase()` (ASCII-faithful). -/
def jsToLower (s : String) : String := ⟨s.data.map Char.toLower⟩

/-! ## Data model (src/services/userDb.js) -/

/-- One user record of the in-memory store: `jid` (key), `isPro`,
optional `email` (JS `null` is `none`), optional `upgradedAt`. -/
structure User where
  jid : String
  isPro : Bool
  email : Option String
  upgradedAt : Option Nat
deriving DecidableEq, Repr

/-- The `Map<string, object>` of `userDb.js`, as an insertion-ordered
list of records keyed by their `jid` field. -/
abbrev Db := List User

/-- The default record `getUser` creates for an unknown jid. -/
def defaultUser (jid : String) : User :=
  { jid := jid, isPro := false, email := none, upgradedAt := none }

/-- `users.set(jid, u)` for `u.jid = jid`: replace the first record with
the same key, else append. -/
def setUser : Db → User → Db
  | [], u => [u]
  | v :: vs, u => if v.jid == u.jid then u :: vs else v :: setUser vs u

/-- `getUser(jid)`: return the existing record, or create-and-return a
default FREE record. Returns the record together with the new store. -/
def getUser (db : Db) (jid : String) : User × Db :=
  match db.find? (fun u => u.jid == jid) with
  | some u => (u, db)
  | none => (defaultUser jid, db ++ [defaultUser jid])

/-- `isProUser(jid)`: `getUser(jid).isPro === true` (also performs the
lazy record creation of `getUser`). -/
def isProUser (db : Db) (jid : String) : Bool × Db :=
  let (u, db1) := getUser db jid
  (u.isPro, db1)

/-- `upgradeUserToPro(jid, email = null)`: set `isPro = true`, stamp
`upgradedAt = new Date()` (unconditionally), store the email only when
it is truthy (non-null, non-empty), and write the record back. -/
def upgradeUserToPro (db : Db) (jid : String) (email : Option String) (now : Nat) :
    User × Db :=
  let (user, db1) := getUser db jid
  let user' : User :=
    { user with
        isPro := true
        upgradedAt := some now
        email := match email with
          | some e => if e = "" then user.email else some e
          | none => user.email }
  (user', setUser db1 user')

/-- `revokeProAccess(jid)`: set `isPro = false`, leaving `email` and
`upgradedAt` untouched. -/
def revokeProAccess (db : Db) (jid : String) : User × Db :=
  let (user, db1) := getUser db jid
  let user' : User := { user with isPro := false }
  (user', setUser db1 user')

/-- `listAllUsers()`: all stored records. -/
def listAllUsers (db : Db) : List User := db

/-- Startup seeding loop of `userDb.js`: every jid of
`config.initialProUsers` gets `isPro: true, email: null,
upgradedAt: new Date()` at startup time `t0`. -/
def seedDb (seeds : List String) (t0 : Nat) : Db :=
  seeds.foldl
    (fun db jid =>
      setUser db { jid := jid, isPro := true, email := none, upgradedAt := some t0 })
    []

/-! ## Configuration and effect logs -/

/-- Startup configuration consumed by the core: the payment link
substituted into the denial template, the hardcoded admin jid, and the
seeded Pro jids. -/
structure Config where
  paymentLink : String
  adminJid : String
  initialProUsers : List String

/-- One `sock.sendMessage(jid, { text })` call. -/
structure Sent where
  jid : String
  text : String
deriving DecidableEq, Repr

/-- Result of routing one inbound message: the updated store, the text
messages sent (in order), and the `sendWelcomeEmail(email, jid)` calls
triggered. -/
structure Effects where
  db : Db
  sent : List Sent
  emails : List (String × String)
deriving DecidableEq, Repr

/-! ## Payment gate (src/middleware/paymentGate.js) -/

/-- The fixed denial template of `requirePro`, with
`config.payment.link` substituted (the JS `join("\n")` is folded into
the literals). -/
def paymentMessage (cfg : Config) : String :=
  "🔒 *Pro Feature — Payment Required*\n\n" ++
  "This command is only available to *Pro* subscribers.\n\n" ++
  "━━━━━━━━━━━━━━━━━━━━━━\n" ++
  "💎 *Upgrade to Pro* and unlock:\n" ++
  "  • /premium commands\n" ++
  "  • Priority support\n" ++
  "  • Exclusive features\n\n" ++
  "💳 *Pay & Upgrade Now:*\n" ++ cfg.paymentLink ++ "\n\n" ++
  "━━━━━━━━━━━━━━━━━━━━━━\n" ++
  "_After payment, send /activate <your-email> to unlock your account._"

/-- `requirePro(jid, sock)`: if the user is Pro return `false` with no
message; otherwise send the payment-required message and return `true`
(caller must stop). Returns `(blocked, store, messages sent)`. -/
def requirePro (cfg : Config) (db : Db) (jid : String) : Bool × Db × List Sent :=
  let (pro, db1) := isProUser db jid
  if pro then (false, db1, [])
  else (true, db1, [⟨jid, paymentMessage cfg⟩])

/-! ## Email service (src/services/emailService.js) -/

/-- Outcome shape of `sendWelcomeEmail(toEmail, jid)`: the Nodemailer
transport (external I/O) is abstracted as the boolean oracle `smtpOk`.
On success the send-info is returned; on failure the error is logged
and rethrown (`throw err`), so the call rejects. -/
def sendWelcomeEmail (smtpOk : Bool) (toEmail : String) (jid : String) :
    Except String String :=
  if smtpOk then Except.ok ("welcome email sent to " ++ toEmail ++ " for " ++ jid)
  else Except.error ("failed to send welcome email to " ++ toEmail)

/-! ## Command handlers (src/handlers/commandHandler.js) -/

/-- The `/start` and `/help` menu text. -/
def startMenuMessage : String :=
  "👋 *Welcome to the WhatsApp Pro Bot!*\n\n" ++
  "Here are the available commands:\n\n" ++
  "📌 */start*    — Show this menu\n" ++
  "📌 */status*   — Check your account tier\n" ++
  "💎 */premium*  — Access Pro features _(Pro only)_\n" ++
  "🔑 */activate <email>* — Activate Pro after payment\n" ++
  "━━━━━━━━━━━━━━━━━━━━━━\n" ++
  "_Powered by Baileys + Node.js_"

/-- The `/premium` pro-zone text. -/
def proZoneMessage : String :=
  "🌟 *Welcome to the Pro Zone!*\n\n" ++
  "You have access to all premium features:\n\n" ++
  "✅ Advanced analytics\n" ++
  "✅ Unlimited requests\n" ++
  "✅ Priority support queue\n" ++
  "✅ Beta feature access\n\n" ++
  "_More features coming soon — stay tuned!_"

/-- The `/activate` usage-error text. -/
def activateUsageMessage : String :=
  "⚠️ Please provide a valid email.\nUsage: */activate your@email.com*"

/-- The `/activate` already-Pro text. -/
def alreadyProMessage : String :=
  "✅ Your account is already *Pro*! Enjoy the features 🎉"

/-- The `/activate` upgrade-confirmation text for a given email. -/
def activateCongratsMessage (email : String) : String :=
  "🎉 *Congratulations!* Your account has been upgraded to *Pro*.\n\n" ++
  "A welcome email is being sent to: _" ++ email ++ "_\n\n" ++
  "Type */premium* to explore your new features!"

/-- The `/admin` access-denied text. -/
def accessDeniedMessage : String :=
  "🚫 *Access Denied.* This command is for admins only."

/-- Rendering of `upgradedAt.toDateString()`; the concrete calendar
formatting is irrelevant to every routed reply property, so the
timestamp renders via `toString`. -/
def dateDisplay (t : Nat) : String := toString t

/-- The `/admin` stats text: total tracked, Pro count, and Free count
derived as total minus Pro. -/
def adminPanelMessage (total : Nat) (pro : Nat) : String :=
  "🛡️ *Admin Panel*\n\n" ++
  "👤 Total users tracked: *" ++ toString total ++ "*\n" ++
  "⭐ Pro users:           *" ++ toString pro ++ "*\n" ++
  "🆓 Free users:          *" ++ toString (total - pro) ++ "*"

/-- `/start` and `/help`: send the menu; no gating, no store access. -/
def handleStart (db : Db) (jid : String) : Effects :=
  ⟨db, [⟨jid, startMenuMessage⟩], []⟩

/-- `/status`: report the caller's tier and, when present, the upgrade
date (lazily creating the record via `getUser`). -/
def handleStatus (db : Db) (jid : String) : Effects :=
  let (user, db1) := getUser db jid
  let tier := if user.isPro then "⭐ *Pro*" else "🆓 *Free*"
  let since := match user.upgradedAt with
    | some t => "\n_Pro since: " ++ dateDisplay t ++ "_"
    | none => ""
  ⟨db1, [⟨jid, "Your current tier: " ++ tier ++ since⟩], []⟩

/-- `/premium`: run the payment gate; if blocked stop (the denial was
already sent), else send the pro-zone text. -/
def handlePremium (cfg : Config) (db : Db) (jid : String) : Effects :=
  let (blocked, db1, out) := requirePro cfg db jid
  if blocked then ⟨db1, out, []⟩
  else ⟨db1, out ++ [⟨jid, proZoneMessage⟩], []⟩

/-- `/activate <email>`: validate `args[0]` (truthy and containing "@"),
short-circuit when already Pro, else upgrade, confirm, and fire the
welcome email whose rejection is caught and only logged. -/
def handleActivate (db : Db) (jid : String) (args : List String) (now : Nat)
    (smtpOk : Bool) : Effects :=
  match args.head? with
  | none => ⟨db, [⟨jid, activateUsageMessage⟩], []⟩
  | some email =>
    if email = "" ∨ ¬ email.data.contains '@' then
      ⟨db, [⟨jid, activateUsageMessage⟩], []⟩
    else
      let (user, db1) := getUser db jid
      if user.isPro then ⟨db1, [⟨jid, alreadyProMessage⟩], []⟩
      else
        let (_, db2) := upgradeUserToPro db1 jid (some email) now
        let confirmation : Sent := ⟨jid, activateCongratsMessage email⟩
        match sendWelcomeEmail smtpOk email jid with
        | Except.ok _ => ⟨db2, [confirmation], [(email, jid)]⟩
        | Except.error _ => ⟨db2, [confirmation], [(email, jid)]⟩

/-- `/admin`: payment gate first, then the exact-equality admin check,
then the aggregate stats over `listAllUsers()`. -/
def handleAdmin (cfg : Config) (db : Db) (jid : String) : Effects :=
  let (blocked, db1, out) := requirePro cfg db jid
  if blocked then ⟨db1, out, []⟩
  else if jid ≠ cfg.adminJid then ⟨db1, out ++ [⟨jid, accessDeniedMessage⟩], []⟩
  else
    let allUsers := listAllUsers db1
    let proCount := (allUsers.filter (fun u => u.isPro)).length
    ⟨db1, out ++ [⟨jid, adminPanelMessage allUsers.length proCount⟩], []⟩

/-- `handleMessage(sock, jid, text)`: trim, split on whitespace runs,
dispatch on the lowercased first token; unknown commands are silently
ignored. -/
def handleMessage (cfg : Config) (db : Db) (jid : String) (text : String)
    (now : Nat) (smtpOk : Bool) : Effects :=
  let trimmed := jsTrim text
  let tokens := jsSplitWs trimmed
  let command := tokens.headD ""
  let args := tokens.tail
  let cmd := jsToLower command
  if cmd = "/start" ∨ cmd = "/help" then handleStart db jid
  else if cmd = "/status" then handleStatus db jid
  else if cmd = "/premium" then handlePremium cfg db jid
  else if cmd = "/activate" then handleActivate db jid args now smtpOk
  else if cmd = "/admin" then handleAdmin cfg db jid
  else ⟨db, [], []⟩

/-! ## Store operation traces (for the upgradedAt invariant) -/

/-- One store-level operation of the public `userDb.js` API. -/
inductive Op where
  | opGetUser (jid : String)
  | opUpgrade (jid : String) (email : Option String) (now : Nat)
  | opRevoke (jid : String)
deriving DecidableEq, Repr

/-- Apply one store operation, keeping only the resulting store. -/
def applyOp (db : Db) : Op → Db
  | Op.opGetUser j => (getUser db j).2
  | Op.opUpgrade j e t => (upgradeUserToPro db j e t).2
  | Op.opRevoke j => (revokeProAccess db j).2

/-- Run a trace of store operations left to right. -/
def runOps (db : Db) (ops : List Op) : Db := ops.foldl applyOp db

/-- Whether a record for `jid` exists and is Pro. -/
def proIn (db : Db) (jid : String) : Bool :=
  ((db.find? (fun u => u.jid == jid)).map (fun u => u.isPro)).getD false

/-- Whether some operation of the trace takes `jid` from non-Pro to
Pro (a FREE to PRO transition of an observed record). -/
def everFreeToPro : Db → List Op → String → Bool
  | _, [], _ => false
  | db, op :: rest, jid =>
    let db' := applyOp db op
    (!proIn db jid && proIn db' jid) || everFreeToPro db' rest jid

/-- Effect of one operation on the `upgradedAt` view of `jid`:
`none` means no record, `some ua` means a record with that field. -/
def stepUA (init : Option (Option Nat)) (op : Op) (jid : String) :
    Option (Option Nat) :=
  match op with
  | Op.opGetUser j => if j = jid then some (init.getD none) else init
  | Op.opUpgrade j _ t => if j = jid then some (some t) else init
  | Op.opRevoke j => if j = jid then some (init.getD none) else init

/-- Expected `upgradedAt` view of `jid` after a trace. -/
def expectedUA (init : Option (Option Nat)) (ops : List Op) (jid : String) :
    Option (Option Nat) :=
  ops.foldl (fun acc op => stepUA acc op jid) init

/-- A concrete configuration used for counterexamples and witnesses. -/
def sampleConfig : Config :=
  { paymentLink := "https://pay.example.com/upgrade"
    adminJid := "15550000000@s.whatsapp.net"
    initialProUsers := [] }

end ProBot

namespace ProBot

/-! ## Store lemmas -/

/-- After `setUser` with a record keyed `jid`, lookup of `jid` finds
exactly that record. -/
theorem setUser_find?_self (db : Db) (u : User) (jid : String) (h : u.jid = jid) :
    (setUser db u).find? (fun v => v.jid == jid) = some u := by
  induction db with
  | nil => simp [setUser, h]
  | cons v vs ih =>
    by_cases hv : (v.jid == u.jid) = true
    · have hv' : v.jid = u.jid := by simpa using hv
      simp [setUser, hv', h]
    · have hvj : (v.jid == jid) = false := by
        subst h
        simpa using hv
      simp [setUser, hv, hvj, ih]

/-- `setUser` with a record keyed differently leaves lookups of `jid`
unchanged. -/
theorem setUser_find?_ne (db : Db) (u : User) (jid : String) (h : u.jid ≠ jid) :
    (setUser db u).find? (fun v => v.jid == jid) = db.find? (fun v => v.jid == jid) := by
  induction db with
  | nil => simp [setUser, beq_iff_eq, h]
  | cons v vs ih =>
    by_cases hv : (v.jid == u.jid) = true
    · have hveq : v.jid = u.jid := by simpa [beq_iff_eq] using hv
      have hvj : (v.jid == jid) = false := by
        simp [beq_iff_eq, hveq]
        exact h
      simp [setUser, hv, List.find?_cons, hvj, beq_iff_eq, h]
    · by_cases hj : (v.jid == jid) = true
      · simp [setUser, hv, List.find?_cons, hj]
      · simp [setUser, hv, List.find?_cons, hj, ih]

/-- The record `getUser` returns is keyed by the requested jid. -/
theorem getUser_jid (db : Db) (jid : String) : (getUser db jid).1.jid = jid := by
  unfold getUser
  cases hf : db.find? (fun u => u.jid == jid) with
  | none => simp [defaultUser]
  | some u =>
    have := List.find?_some hf
    simpa [beq_iff_eq] using this

/-- `getUser` on a present key returns the stored record unchanged. -/
theorem getUser_of_find? {db : Db} {jid : String} {u : User}
    (h : db.find? (fun v => v.jid == jid) = some u) : getUser db jid = (u, db) := by
  simp [getUser, h]

/-- `getUser` on an absent key appends the default record. -/
theorem getUser_of_none {db : Db} {jid : String}
    (h : db.find? (fun v => v.jid == jid) = none) :
    getUser db jid = (defaultUser jid, db ++ [defaultUser jid]) := by
  simp [getUser, h]

/-- After `getUser`, a record for the key is present and is the one
returned. -/
theorem getUser_find?_self (db : Db) (jid : String) :
    ((getUser db jid).2).find? (fun u => u.jid == jid) = some (getUser db jid).1 := by
  cases hf : db.find? (fun v => v.jid == jid) with
  | some u => simp [getUser_of_find? hf, hf]
  | none =>
    simp [getUser_of_none hf, List.find?_append, hf, defaultUser]

/-- `getUser` of one key leaves lookups of another key unchanged. -/
theorem getUser_find?_ne (db : Db) (j jid : String) (h : j ≠ jid) :
    ((getUser db j).2).find? (fun u => u.jid == jid) = db.find? (fun u => u.jid == jid) := by
  cases hf : db.find? (fun v => v.jid == j) with
  | some u => simp [getUser_of_find? hf]
  | none =>
    simp [getUser_of_none hf, List.find?_append, defaultUser, beq_iff_eq, h]

/-- If the record `getUser` returns is Pro, the record already existed,
so the store is unchanged. -/
theorem getUser_snd_of_pro {db : Db} {jid : String}
    (h : (getUser db jid).1.isPro = true) : (getUser db jid).2 = db := by
  cases hf : db.find? (fun v => v.jid == jid) with
  | some u => simp [getUser_of_find? hf]
  | none =>
    rw [getUser_of_none hf] at h
    simp [defaultUser] at h

/-- A second `getUser` of the same key finds the record the first one
returned and leaves the store unchanged. -/
theorem getUser_getUser (db : Db) (jid : String) :
    getUser (getUser db jid).2 jid = ((getUser db jid).1, (getUser db jid).2) :=
  getUser_of_find? (getUser_find?_self db jid)

/-- Projection of `isProUser` to the returned boolean. -/
theorem isProUser_fst (db : Db) (jid : String) :
    (isProUser db jid).1 = (getUser db jid).1.isPro := by
  rcases hg : getUser db jid with ⟨u, d⟩
  simp [isProUser, hg]

/-- Projection of `isProUser` to the returned store. -/
theorem isProUser_snd (db : Db) (jid : String) :
    (isProUser db jid).2 = (getUser db jid).2 := by
  rcases hg : getUser db jid with ⟨u, d⟩
  simp [isProUser, hg]

end ProBot

namespace ProBot

/-! ## Gate and handler lemmas -/

/-- For a Pro user the gate passes silently and the store is unchanged
(a Pro record necessarily already exists). -/
theorem requirePro_pro (cfg : Config) (db : Db) (jid : String)
    (h : (isProUser db jid).1 = true) :
    requirePro cfg db jid = (false, db, []) := by
  have hp : (getUser db jid).1.isPro = true := by rwa [isProUser_fst] at h
  rcases hg : getUser db jid with ⟨u, d⟩
  have hd : d = db := by
    have := getUser_snd_of_pro hp
    rwa [hg] at this
  have hu : u.isPro = true := by
    rw [hg] at hp
    exact hp
  simp [requirePro, isProUser, hg, hu, hd]

/-- For a non-Pro user the gate blocks, sends exactly the denial
message, and performs the lazy record creation of `getUser`. -/
theorem requirePro_free (cfg : Config) (db : Db) (jid : String)
    (h : (isProUser db jid).1 = false) :
    requirePro cfg db jid = (true, (getUser db jid).2, [⟨jid, paymentMessage cfg⟩]) := by
  have hp : (getUser db jid).1.isPro = false := by rwa [isProUser_fst] at h
  rcases hg : getUser db jid with ⟨u, d⟩
  have hu : u.isPro = false := by
    rw [hg] at hp
    exact hp
  simp [requirePro, isProUser, hg, hu]

/-- The email-call match of `handleActivate` is constant in the send
outcome (the rejection is caught and only logged). -/
theorem emailMatchConst (r : Except String String) (x : Effects) :
    (match r with | Except.ok _ => x | Except.error _ => x) = x := by
  cases r <;> rfl

/-- With an invalid or missing first argument, `/activate` replies with
exactly one usage error and leaves the store untouched. -/
theorem handleActivate_invalid (db : Db) (jid : String) (args : List String)
    (now : Nat) (smtpOk : Bool)
    (h : ∀ a ∈ args.head?, a = "" ∨ a.data.contains '@' = false) :
    handleActivate db jid args now smtpOk = ⟨db, [⟨jid, activateUsageMessage⟩], []⟩ := by
  cases args with
  | nil => rfl
  | cons a rest =>
    have ha := h a (by simp)
    rcases ha with ha | ha
    · simp [handleActivate, ha]
    · have ha' : '@' ∉ a.data := by simpa using ha
      simp [handleActivate, ha']

/-- With a valid first argument but an already-Pro caller, `/activate`
short-circuits: one already-Pro reply, no store change, no email. -/
theorem handleActivate_pro (db : Db) (jid email : String) (rest : List String)
    (now : Nat) (smtpOk : Bool)
    (h1 : ¬ email = "") (h2 : email.data.contains '@' = true)
    (h3 : (getUser db jid).1.isPro = true) :
    handleActivate db jid (email :: rest) now smtpOk
      = ⟨db, [⟨jid, alreadyProMessage⟩], []⟩ := by
  rcases hg : getUser db jid with ⟨u, d⟩
  have hd : d = db := by
    have := getUser_snd_of_pro h3
    rwa [hg] at this
  have hu : u.isPro = true := by
    rw [hg] at h3
    exact h3
  have h2' : '@' ∈ email.data := by simpa using h2
  simp [handleActivate, hg, h1, h2', hu, hd]

/-- With a valid first argument and a non-Pro caller, `/activate`
upgrades the record (tier PRO, the email, the call time), sends exactly
one confirmation, and triggers exactly one email call; extra arguments
beyond the first are ignored. -/
theorem handleActivate_free (db : Db) (jid email : String) (rest : List String)
    (now : Nat) (smtpOk : Bool)
    (h1 : ¬ email = "") (h2 : email.data.contains '@' = true)
    (h3 : (getUser db jid).1.isPro = false) :
    handleActivate db jid (email :: rest) now smtpOk
      = ⟨setUser (getUser db jid).2 ⟨jid, true, some email, some now⟩,
         [⟨jid, activateCongratsMessage email⟩], [(email, jid)]⟩ := by
  rcases hg : getUser db jid with ⟨u, d⟩
  have hu : u.isPro = false := by
    rw [hg] at h3
    exact h3
  have hgg : getUser d jid = (u, d) := by
    have := getUser_getUser db jid
    rwa [hg] at this
  have hjid : u.jid = jid := by
    have := getUser_jid db jid
    rwa [hg] at this
  have h2' : '@' ∈ email.data := by simpa using h2
  simp only [handleActivate, List.head?_cons, hg, hu]
  simp [h1, h2', upgradeUserToPro, hgg, emailMatchConst, hjid]

end ProBot

namespace ProBot

/-! ## Trace lemmas for the upgradedAt characterization -/

/-- One store operation changes the `upgradedAt` view of a key exactly
as `stepUA` predicts. -/
theorem find?_applyOp (db : Db) (op : Op) (jid : String) :
    ((applyOp db op).find? (fun u => u.jid == jid)).map (fun u => u.upgradedAt)
      = stepUA ((db.find? (fun u => u.jid == jid)).map (fun u => u.upgradedAt)) op jid := by
  cases op with
  | opGetUser j =>
    by_cases hj : j = jid
    · subst hj
      rw [show applyOp db (Op.opGetUser j) = (getUser db j).2 from rfl]
      rw [getUser_find?_self]
      cases hf : db.find? (fun u => u.jid == j) with
      | some u => simp [stepUA, getUser_of_find? hf, hf]
      | none => simp [stepUA, getUser_of_none hf, hf, defaultUser]
    · rw [show applyOp db (Op.opGetUser j) = (getUser db j).2 from rfl]
      rw [getUser_find?_ne db j jid hj]
      simp [stepUA, hj]
  | opUpgrade j e t =>
    rcases hg : getUser db j with ⟨u, d⟩
    have hjid : u.jid = j := by
      have := getUser_jid db j
      rwa [hg] at this
    have happ : applyOp db (Op.opUpgrade j e t)
        = setUser d { u with
            isPro := true
            upgradedAt := some t
            email := match e with
              | some s => if s = "" then u.email else some s
              | none => u.email } := by
      simp [applyOp, upgradeUserToPro, hg]
    by_cases hj : j = jid
    · subst hj
      rw [happ, setUser_find?_self _ _ _ (by simpa using hjid)]
      simp [stepUA]
    · rw [happ, setUser_find?_ne _ _ _ (by simpa [hjid] using hj)]
      have hd : (getUser db j).2 = d := by rw [hg]
      rw [← hd, getUser_find?_ne db j jid hj]
      simp [stepUA, hj]
  | opRevoke j =>
    rcases hg : getUser db j with ⟨u, d⟩
    have hjid : u.jid = j := by
      have := getUser_jid db j
      rwa [hg] at this
    have happ : applyOp db (Op.opRevoke j) = setUser d { u with isPro := false } := by
      simp [applyOp, revokeProAccess, hg]
    by_cases hj : j = jid
    · subst hj
      rw [happ, setUser_find?_self _ _ _ (by simpa using hjid)]
      cases hf : db.find? (fun v => v.jid == j) with
      | some v =>
        have : getUser db j = (v, db) := getUser_of_find? hf
        rw [this] at hg
        cases hg
        simp [stepUA, hf]
      | none =>
        have : getUser db j = (defaultUser j, db ++ [defaultUser j]) := getUser_of_none hf
        rw [this] at hg
        cases hg
        simp [stepUA, hf, defaultUser]
    · rw [happ, setUser_find?_ne _ _ _ (by simpa [hjid] using hj)]
      have hd : (getUser db j).2 = d := by rw [hg]
      rw [← hd, getUser_find?_ne db j jid hj]
      simp [stepUA, hj]

/-- Trace-level characterization: running any list of store operations
turns the `upgradedAt` view of a key into `expectedUA` of the initial
view. -/
theorem find?_runOps (ops : List Op) (db : Db) (jid : String) :
    ((runOps db ops).find? (fun u => u.jid == jid)).map (fun u => u.upgradedAt)
      = expectedUA ((db.find? (fun u => u.jid == jid)).map (fun u => u.upgradedAt)) ops jid := by
  induction ops generalizing db with
  | nil => rfl
  | cons op rest ih =>
    have h1 : runOps db (op :: rest) = runOps (applyOp db op) rest := rfl
    have h2 : ∀ init, expectedUA init (op :: rest) jid
        = expectedUA (stepUA init op jid) rest jid := fun _ => rfl
    rw [h1, h2, ih (applyOp db op), find?_applyOp]

/-- Lookup in the seeded startup store. -/
theorem seedDb_find? (seeds : List String) (t0 : Nat) (jid : String) :
    (seedDb seeds t0).find? (fun u => u.jid == jid)
      = if jid ∈ seeds then some ⟨jid, true, none, some t0⟩ else none := by
  have general : ∀ db : Db,
      (seeds.foldl
          (fun db j => setUser db { jid := j, isPro := true, email := none, upgradedAt := some t0 })
          db).find? (fun u => u.jid == jid)
        = if jid ∈ seeds then some ⟨jid, true, none, some t0⟩
          else db.find? (fun u => u.jid == jid) := by
    induction seeds with
    | nil =>
      intro db
      simp
    | cons s rest ih =>
      intro db
      rw [List.foldl_cons, ih]
      by_cases hr : jid ∈ rest
      · simp [hr]
      · by_cases hs : s = jid
        · subst hs
          simp [hr, setUser_find?_self]
        · have : jid ∉ s :: rest := by
            simp only [List.mem_cons, not_or]
            exact ⟨fun h => hs h.symm, hr⟩
          simp only [this, if_false, hr, if_false]
          exact setUser_find?_ne db _ jid hs
  simpa [seedDb] using general []

end ProBot

namespace ProBot

/-! ## Additional derived lemmas -/

/-- Form of one `upgradeUserToPro` call with a non-empty email: the
returned and stored record is fully determined by the key, the email
and the call time. -/
theorem upgradeUserToPro_eq (db : Db) (jid e : String) (now : Nat) (he : ¬ e = "") :
    upgradeUserToPro db jid (some e) now
      = (⟨jid, true, some e, some now⟩,
         setUser (getUser db jid).2 ⟨jid, true, some e, some now⟩) := by
  rcases hg : getUser db jid with ⟨u, d⟩
  have hjid : u.jid = jid := by
    have := getUser_jid db jid
    rwa [hg] at this
  simp [upgradeUserToPro, hg, he, hjid]

/-! ## Claims -/

/-- C1: for every store state and identity, `requirePro` returns `true`
and sends exactly one denial message — which contains the configured
payment link — iff `isProUser` is false at call time, and returns
`false` sending nothing iff `isProUser` is true; the inverted polarity
(true means the caller must stop) is exact. -/
theorem requirePro_gate_spec (cfg : Config) (db : Db) (jid : String) :
    ((isProUser db jid).1 = false ↔
        (requirePro cfg db jid).1 = true
          ∧ (requirePro cfg db jid).2.2 = [⟨jid, paymentMessage cfg⟩])
      ∧ ((isProUser db jid).1 = true ↔
        (requirePro cfg db jid).1 = false ∧ (requirePro cfg db jid).2.2 = [])
      ∧ ∃ pre post, paymentMessage cfg = pre ++ cfg.paymentLink ++ post := by
  refine ⟨?_, ?_, ?_⟩
  · cases hp : (isProUser db jid).1
    · simp [requirePro_free cfg db jid hp]
    · simp [requirePro_pro cfg db jid hp]
  · cases hp : (isProUser db jid).1
    · simp [requirePro_free cfg db jid hp]
    · simp [requirePro_pro cfg db jid hp]
  · refine ⟨"🔒 *Pro Feature — Payment Required*\n\n" ++
      "This command is only available to *Pro* subscribers.\n\n" ++
      "━━━━━━━━━━━━━━━━━━━━━━\n" ++
      "💎 *Upgrade to Pro* and unlock:\n" ++
      "  • /premium commands\n" ++
      "  • Priority support\n" ++
      "  • Exclusive features\n\n" ++
      "💳 *Pay & Upgrade Now:*\n",
      "\n\n" ++ "━━━━━━━━━━━━━━━━━━━━━━\n" ++
      "_After payment, send /activate <your-email> to unlock your account._", ?_⟩
    apply String.ext
    simp [paymentMessage, List.append_assoc]

/-- C2 counterexample: at the store level, a second `upgradeUserToPro`
call at a later time overwrites `upgradedAt`, so two calls in a row with
the same email do not yield the same `upgradedAt` both times. -/
theorem upgradeUserToPro_twice_counterexample :
    (upgradeUserToPro [] "u" (some "a@b.com") 0).1.upgradedAt = some 0
    ∧ (upgradeUserToPro (upgradeUserToPro [] "u" (some "a@b.com") 0).2 "u"
        (some "a@b.com") 1).1.upgradedAt = some 1
    ∧ ¬ ((upgradeUserToPro (upgradeUserToPro [] "u" (some "a@b.com") 0).2 "u"
          (some "a@b.com") 1).1.upgradedAt
        = (upgradeUserToPro [] "u" (some "a@b.com") 0).1.upgradedAt) := by
  decide

/-- C2 (amended): two `upgradeUserToPro(id, "a@b.com")` calls in a row
store `contactEmail = "a@b.com"` and tier PRO both times, but each call
stamps `upgradedAt` with its own call time, so the second call
overwrites the first timestamp (they agree only when the call times
coincide). -/
theorem upgradeUserToPro_twice (db : Db) (jid : String) (t1 t2 : Nat) :
    (upgradeUserToPro db jid (some "a@b.com") t1).1.email = some "a@b.com"
    ∧ (upgradeUserToPro db jid (some "a@b.com") t1).1.isPro = true
    ∧ (upgradeUserToPro db jid (some "a@b.com") t1).1.upgradedAt = some t1
    ∧ (upgradeUserToPro (upgradeUserToPro db jid (some "a@b.com") t1).2 jid
        (some "a@b.com") t2).1.email = some "a@b.com"
    ∧ (upgradeUserToPro (upgradeUserToPro db jid (some "a@b.com") t1).2 jid
        (some "a@b.com") t2).1.isPro = true
    ∧ (upgradeUserToPro (upgradeUserToPro db jid (some "a@b.com") t1).2 jid
        (some "a@b.com") t2).1.upgradedAt = some t2 := by
  have h1 := upgradeUserToPro_eq db jid "a@b.com" t1 (by decide)
  have h2 := upgradeUserToPro_eq
    (setUser (getUser db jid).2 ⟨jid, true, some "a@b.com", some t1⟩) jid
    "a@b.com" t2 (by decide)
  simp [h1, h2]

/-- C3 counterexample: `/activate` with two arguments whose first is a
valid email is accepted, upgrading the store and sending the
confirmation — not the usage error the claim requires for an argument
list that is not exactly one argument long. -/
theorem activate_extra_args_counterexample :
    ¬ ((handleMessage sampleConfig [] "u" "/activate a@b extra" 0 true).sent
          = [⟨"u", activateUsageMessage⟩]
        ∧ (handleMessage sampleConfig [] "u" "/activate a@b extra" 0 true).db = [])
    ∧ (handleMessage sampleConfig [] "u" "/activate a@b extra" 0 true).db
        = [⟨"u", true, some "a@b", some 0⟩]
    ∧ (handleMessage sampleConfig [] "u" "/activate a@b extra" 0 true).sent
        = [⟨"u", activateCongratsMessage "a@b"⟩] := by
  decide

/-- C3 (amended): `/activate` validates only that a first argument is
present, non-empty and contains an "@": in that failing case it sends
exactly one usage-error reply and performs no store mutation and no
email call; arguments beyond the first are ignored rather than
rejected. -/
theorem handleActivate_validation (db : Db) (jid : String) (args : List String)
    (now : Nat) (smtpOk : Bool) :
    ((∀ a ∈ args.head?, a = "" ∨ a.data.contains '@' = false) →
        handleActivate db jid args now smtpOk
          = ⟨db, [⟨jid, activateUsageMessage⟩], []⟩)
    ∧ (∀ a rest, args = a :: rest →
        handleActivate db jid args now smtpOk = handleActivate db jid [a] now smtpOk) := by
  constructor
  · intro h
    exact handleActivate_invalid db jid args now smtpOk h
  · rintro a rest rfl
    rfl

/-- C3 witness: a concrete invalid argument gets the usage error, and a
concrete extra argument is ignored. -/
theorem handleActivate_validation_witness :
    handleActivate [] "u" ["bad"] 0 true = ⟨[], [⟨"u", activateUsageMessage⟩], []⟩
    ∧ handleActivate [] "u" ["a@b", "extra"] 0 true
      = handleActivate [] "u" ["a@b"] 0 true := by
  constructor
  · refine (handleActivate_validation [] "u" ["bad"] 0 true).1 ?_
    intro a ha
    simp at ha
    subst ha
    right
    decide
  · exact (handleActivate_validation [] "u" ["a@b", "extra"] 0 true).2 "a@b" ["extra"] rfl

end ProBot

namespace ProBot

/-- C4: routing "/activate user@test.com" for a FREE identity sends
exactly one upgrade-confirmation reply, stores a PRO record with the
given email and the call time, triggers exactly one email-notify call,
and the routed result is the same whether the email send succeeds or
rejects (the rejection is caught and only logged). -/
theorem route_activate_free_spec (cfg : Config) (db : Db) (jid : String) (now : Nat)
    (smtpOk : Bool) (h : (isProUser db jid).1 = false) :
    (handleMessage cfg db jid "/activate user@test.com" now smtpOk).sent
        = [⟨jid, activateCongratsMessage "user@test.com"⟩]
      ∧ ((handleMessage cfg db jid "/activate user@test.com" now smtpOk).db.find?
          (fun u => u.jid == jid))
        = some ⟨jid, true, some "user@test.com", some now⟩
      ∧ (handleMessage cfg db jid "/activate user@test.com" now smtpOk).emails
        = [("user@test.com", jid)]
      ∧ handleMessage cfg db jid "/activate user@test.com" now true
        = handleMessage cfg db jid "/activate user@test.com" now false := by
  have hp : (getUser db jid).1.isPro = false := by rwa [isProUser_fst] at h
  have hr : ∀ ok : Bool, handleMessage cfg db jid "/activate user@test.com" now ok
      = handleActivate db jid ["user@test.com"] now ok := fun _ => rfl
  have hf : ∀ ok : Bool, handleActivate db jid ["user@test.com"] now ok
      = ⟨setUser (getUser db jid).2 ⟨jid, true, some "user@test.com", some now⟩,
         [⟨jid, activateCongratsMessage "user@test.com"⟩], [("user@test.com", jid)]⟩ :=
    fun ok => handleActivate_free db jid "user@test.com" [] now ok
      (by decide) (by decide) hp
  refine ⟨?_, ?_, ?_, ?_⟩
  · rw [hr, hf]
  · rw [hr, hf]
    exact setUser_find?_self _ _ _ rfl
  · rw [hr, hf]
  · rw [hr true, hr false, hf true, hf false]

/-- C4 witness: concrete FREE identity activating with a valid email. -/
theorem route_activate_free_spec_witness :
    (handleMessage sampleConfig [] "u" "/activate user@test.com" 5 true).sent
      = [⟨"u", activateCongratsMessage "user@test.com"⟩]
    ∧ (handleMessage sampleConfig [] "u" "/activate user@test.com" 5 true).db.find?
        (fun u => u.jid == "u") = some ⟨"u", true, some "user@test.com", some 5⟩ :=
  ⟨(route_activate_free_spec sampleConfig [] "u" 5 true (by decide)).1,
   (route_activate_free_spec sampleConfig [] "u" 5 true (by decide)).2.1⟩

/-- C5: routing "/activate user@test.com" for an identity whose record
is already PRO sends exactly one already-Pro reply and leaves the store
completely unchanged: no upgrade call, no email-notify call. -/
theorem route_activate_already_pro (cfg : Config) (db : Db) (jid : String)
    (now : Nat) (smtpOk : Bool) (h : (isProUser db jid).1 = true) :
    handleMessage cfg db jid "/activate user@test.com" now smtpOk
      = ⟨db, [⟨jid, alreadyProMessage⟩], []⟩ := by
  have hp : (getUser db jid).1.isPro = true := by rwa [isProUser_fst] at h
  have hr : handleMessage cfg db jid "/activate user@test.com" now smtpOk
      = handleActivate db jid ["user@test.com"] now smtpOk := rfl
  rw [hr]
  exact handleActivate_pro db jid "user@test.com" [] now smtpOk
    (by decide) (by decide) hp

/-- C5 witness: a concrete PRO record keeps its original upgrade data. -/
theorem route_activate_already_pro_witness :
    handleMessage sampleConfig [⟨"u", true, some "x@y", some 3⟩] "u"
        "/activate user@test.com" 9 true
      = ⟨[⟨"u", true, some "x@y", some 3⟩], [⟨"u", alreadyProMessage⟩], []⟩ :=
  route_activate_already_pro sampleConfig [⟨"u", true, some "x@y", some 3⟩]
    "u" 9 true (by decide)

/-- C6: routing "/admin" runs the Pro gate first; a PRO identity that is
not string-equal to the configured admin gets exactly one access-denied
reply and no stats, while the configured admin (when PRO) gets one stats
reply whose reported Free count (total minus Pro) plus Pro count equals
the reported total of tracked identities. -/
theorem route_admin_spec (cfg : Config) (db : Db) (jid : String) (now : Nat)
    (smtpOk : Bool) :
    ((isProUser db jid).1 = true → jid ≠ cfg.adminJid →
        handleMessage cfg db jid "/admin" now smtpOk
          = ⟨db, [⟨jid, accessDeniedMessage⟩], []⟩)
    ∧ ((isProUser db jid).1 = true → jid = cfg.adminJid →
        handleMessage cfg db jid "/admin" now smtpOk
          = ⟨db, [⟨jid, adminPanelMessage (listAllUsers db).length
                ((listAllUsers db).filter (fun u => u.isPro)).length⟩], []⟩
        ∧ ((listAllUsers db).length
              - ((listAllUsers db).filter (fun u => u.isPro)).length)
            + ((listAllUsers db).filter (fun u => u.isPro)).length
          = (listAllUsers db).length) := by
  have hr : handleMessage cfg db jid "/admin" now smtpOk = handleAdmin cfg db jid := rfl
  constructor
  · intro h hne
    rw [hr]
    simp [handleAdmin, requirePro_pro cfg db jid h, hne]
  · intro h heq
    subst heq
    constructor
    · rw [hr]
      simp [handleAdmin, requirePro_pro cfg db cfg.adminJid h, listAllUsers]
    · have hle := List.length_filter_le (fun u => u.isPro) (listAllUsers db)
      omega

/-- C6 witness: a PRO non-admin is denied; the admin receives the stats
with Free + Pro summing to the total. -/
theorem route_admin_spec_witness :
    handleMessage sampleConfig [⟨"u", true, none, none⟩] "u" "/admin" 0 true
      = ⟨[⟨"u", true, none, none⟩], [⟨"u", accessDeniedMessage⟩], []⟩
    ∧ handleMessage sampleConfig
        [⟨"15550000000@s.whatsapp.net", true, none, none⟩, ⟨"v", false, none, none⟩]
        "15550000000@s.whatsapp.net" "/admin" 0 true
      = ⟨[⟨"15550000000@s.whatsapp.net", true, none, none⟩, ⟨"v", false, none, none⟩],
         [⟨"15550000000@s.whatsapp.net", adminPanelMessage 2 1⟩], []⟩ := by
  constructor
  · exact (route_admin_spec sampleConfig [⟨"u", true, none, none⟩] "u" 0 true).1
      (by decide) (by decide)
  · have h := ((route_admin_spec sampleConfig
        [⟨"15550000000@s.whatsapp.net", true, none, none⟩, ⟨"v", false, none, none⟩]
        "15550000000@s.whatsapp.net" 0 true).2 (by decide) rfl).1
    exact h.trans (by decide)

/-- C7 counterexample: routing "/premium" for an identity with no
existing record does mutate the Identity Store — the gate's `isProUser`
lookup lazily inserts a default FREE record. -/
theorem route_premium_counterexample :
    ¬ ((handleMessage sampleConfig [] "u" "/premium" 0 true).db = [])
    ∧ (handleMessage sampleConfig [] "u" "/premium" 0 true).db = [defaultUser "u"] := by
  decide

/-- C7 (amended): routing "/premium" performs no store mutation beyond
the lazy first-lookup record creation: the resulting store is exactly
`getUser`'s store, so it is unchanged whenever a record for the identity
already exists, and gains only the default FREE record otherwise —
whether the gate blocks or passes. -/
theorem route_premium_frame (cfg : Config) (db : Db) (jid : String) (now : Nat)
    (smtpOk : Bool) :
    (handleMessage cfg db jid "/premium" now smtpOk).db = (getUser db jid).2
    ∧ (db.find? (fun u => u.jid == jid) = none →
        (handleMessage cfg db jid "/premium" now smtpOk).db = db ++ [defaultUser jid])
    ∧ (∀ u, db.find? (fun u => u.jid == jid) = some u →
        (handleMessage cfg db jid "/premium" now smtpOk).db = db) := by
  have hr : handleMessage cfg db jid "/premium" now smtpOk = handlePremium cfg db jid := rfl
  have hmain : (handleMessage cfg db jid "/premium" now smtpOk).db = (getUser db jid).2 := by
    rw [hr]
    cases hp : (isProUser db jid).1
    · simp [handlePremium, requirePro_free cfg db jid hp]
    · have hdb : (getUser db jid).2 = db := getUser_snd_of_pro (by rwa [isProUser_fst] at hp)
      simp [handlePremium, requirePro_pro cfg db jid hp, hdb]
  refine ⟨hmain, ?_, ?_⟩
  · intro hn
    rw [hmain, getUser_of_none hn]
  · intro u hu
    rw [hmain, getUser_of_find? hu]

/-- C7 witness: an existing record (blocked or passing) is untouched;
an unknown identity gains exactly the default record. -/
theorem route_premium_frame_witness :
    (handleMessage sampleConfig [⟨"u", true, none, none⟩] "u" "/premium" 0 true).db
      = [⟨"u", true, none, none⟩]
    ∧ (handleMessage sampleConfig [] "v" "/premium" 0 true).db = [] ++ [defaultUser "v"] :=
  ⟨(route_premium_frame sampleConfig [⟨"u", true, none, none⟩] "u" 0 true).2.2
      ⟨"u", true, none, none⟩ (by decide),
   (route_premium_frame sampleConfig [] "v" 0 true).2.1 (by decide)⟩

/-- C8 counterexample: a record seeded as PRO at startup has a non-null
`upgradedAt` (stamped with the startup time) although its tier never
underwent a FREE to PRO transition. -/
theorem seeded_upgradedAt_counterexample :
    everFreeToPro (seedDb ["s"] 5) [] "s" = false
    ∧ ((runOps (seedDb ["s"] 5) []).find? (fun u => u.jid == "s")).map
        (fun u => u.upgradedAt) = some (some 5) := by
  decide

/-- C8 (amended): over every trace of store operations from a seeded
startup store, a record's `upgradedAt` is exactly what `expectedUA`
predicts: seeded-PRO records start with the startup time, every
`upgradeUserToPro` call overwrites it with that call's time (even on an
already-PRO record), and `getUser`/`revokeProAccess` never change it
(creating a record sets it to null). -/
theorem upgradedAt_trace_spec (seeds : List String) (t0 : Nat) (ops : List Op)
    (jid : String) :
    ((runOps (seedDb seeds t0) ops).find? (fun u => u.jid == jid)).map
        (fun u => u.upgradedAt)
      = expectedUA (if jid ∈ seeds then some (some t0) else none) ops jid := by
  rw [find?_runOps, seedDb_find?]
  by_cases h : jid ∈ seeds <;> simp [h]

/-- C9: any input whose lowercased first whitespace-delimited token is
none of the six known commands — including empty, whitespace-only and
unprefixed text — routes to the silent default: zero replies, zero email
calls, store unchanged. -/
theorem route_unknown_silent (cfg : Config) (db : Db) (jid : String) (text : String)
    (now : Nat) (smtpOk : Bool)
    (h : ∀ s ∈ (["/start", "/help", "/status", "/premium", "/activate", "/admin"] :
        List String), jsToLower ((jsSplitWs (jsTrim text)).headD "") ≠ s) :
    handleMessage cfg db jid text now smtpOk = ⟨db, [], []⟩ := by
  have h1 := h "/start" (by simp)
  have h2 := h "/help" (by simp)
  have h3 := h "/status" (by simp)
  have h4 := h "/premium" (by simp)
  have h5 := h "/activate" (by simp)
  have h6 := h "/admin" (by simp)
  simp only [List.headD_eq_head?_getD] at h1 h2 h3 h4 h5 h6
  simp [handleMessage, h1, h2, h3, h4, h5, h6]

/-- C9 witness: a concrete unknown command is silently ignored. -/
theorem route_unknown_silent_witness :
    handleMessage sampleConfig [] "u" "/xyz" 0 true = ⟨[], [], []⟩ :=
  route_unknown_silent sampleConfig [] "u" "/xyz" 0 true (by decide)

/-- C10: routing "/status" for an identity with no record sends exactly
one Free-tier reply with no upgrade date and appends the default FREE
record to the store, growing the tracked-identity count by one. -/
theorem route_status_unknown (cfg : Config) (db : Db) (jid : String) (now : Nat)
    (smtpOk : Bool) (h : db.find? (fun u => u.jid == jid) = none) :
    handleMessage cfg db jid "/status" now smtpOk
      = ⟨db ++ [defaultUser jid], [⟨jid, "Your current tier: 🆓 *Free*"⟩], []⟩
    ∧ (handleMessage cfg db jid "/status" now smtpOk).db.length = db.length + 1 := by
  have hr : handleMessage cfg db jid "/status" now smtpOk = handleStatus db jid := rfl
  have hmsg : ("Your current tier: " ++ "🆓 *Free*" ++ "")
      = "Your current tier: 🆓 *Free*" := by decide
  have hmain : handleMessage cfg db jid "/status" now smtpOk
      = ⟨db ++ [defaultUser jid], [⟨jid, "Your current tier: 🆓 *Free*"⟩], []⟩ := by
    rw [hr]
    unfold handleStatus
    rw [getUser_of_none h]
    simp [defaultUser, hmsg]
  exact ⟨hmain, by rw [hmain]; simp⟩

/-- C10 witness: a concrete unseen identity checking its status. -/
theorem route_status_unknown_witness :
    handleMessage sampleConfig [] "u" "/status" 0 true
      = ⟨[defaultUser "u"], [⟨"u", "Your current tier: 🆓 *Free*"⟩], []⟩ :=
  ((route_status_unknown sampleConfig [] "u" 0 true (by decide)).1).trans (by decide)

end ProBot

namespace ProBot

/-- C1 witness: concrete non-Pro and Pro identities exercising both
directions of the gate equivalence. -/
theorem requirePro_gate_spec_witness :
    (requirePro sampleConfig [] "u").1 = true
    ∧ (requirePro sampleConfig [] "u").2.2 = [⟨"u", paymentMessage sampleConfig⟩]
    ∧ (requirePro sampleConfig [⟨"p", true, none, none⟩] "p").1 = false
    ∧ (requirePro sampleConfig [⟨"p", true, none, none⟩] "p").2.2 = [] := by
  have hfree := (requirePro_gate_spec sampleConfig [] "u").1.mp (by decide)
  have hpro :=
    (requirePro_gate_spec sampleConfig [⟨"p", true, none, none⟩] "p").2.1.mp (by decide)
  exact ⟨hfree.1, hfree.2, hpro.1, hpro.2⟩

end ProBot
